import Mathlib

/-!
Shallow embedding of the zed-harper extension (src/lib.rs): binary
resolution (`get_binary`), installation (`install_binary`) and the three
`zed::Extension` entry points.  Host-provided effects (settings lookup,
PATH query, shell environment, GitHub release query, download, chmod)
are modelled as fields of explicit `Worktree` / `World` records; the
filesystem is a list of component paths; observable side effects are
recorded in an event trace.
-/

namespace Harper

/-- A filesystem path, as its list of components
(e.g. `["harper-ls-v1.2.0", "harper-ls"]`). -/
abbrev Path := List String

/-- `static NAME: &str = "harper-ls"`. -/
def NAME : String := "harper-ls"

/-- `zed::Os`. -/
inductive Os where
  | mac
  | linux
  | windows
deriving DecidableEq, Repr

/-- `zed::Architecture`. -/
inductive Architecture where
  | aarch64
  | x8664
  | x86
deriving DecidableEq, Repr

/-- One release asset: name and download URL. -/
structure GithubReleaseAsset where
  name : String
  download_url : String
deriving DecidableEq, Repr

/-- A GitHub release: version string plus asset list. -/
structure GithubRelease where
  version : String
  assets : List GithubReleaseAsset
deriving DecidableEq, Repr

/-- Opaque JSON values (for `initialization_options` / `settings`). -/
inductive Json where
  | null
  | bool (b : Bool)
  | num (n : Int)
  | str (s : String)
  | arr (elems : List Json)
  | obj (fields : List (String × Json))

/-- `zed_extension_api::settings::BinarySettings`: optional path and
optional argument list. -/
structure BinarySettings where
  path : Option Path
  arguments : Option (List String)

/-- `zed_extension_api::settings::LspSettings`. -/
structure LspSettings where
  binary : Option BinarySettings
  initialization_options : Option Json
  settings : Option Json

/-- The worktree-scoped host context: the result of
`LspSettings::for_worktree` (which can fail), the result of
`worktree.which(NAME)`, and `worktree.shell_env()`. -/
structure Worktree where
  lspSettings : Except String LspSettings
  whichResult : Option Path
  shellEnv : List (String × String)

/-- The ambient context of an install: outcome of the GitHub release
query, current platform and architecture, the filesystem (set of
existing paths), and the outcomes of the download and chmod calls.
`downloadCreates` lists the paths (relative to the version directory)
that the download/extraction attempt creates on disk — also the partial
artifacts left behind when the download fails. -/
structure World where
  releaseResult : Except String GithubRelease
  platform : Os
  arch : Architecture
  fs : List Path
  downloadResult : Except String Unit
  downloadCreates : List Path
  makeExecutableResult : Except String Unit

/-- `struct HarperBinary`. -/
structure HarperBinary where
  path : Path
  args : Option (List String)
  env : Option (List (String × String))
deriving DecidableEq, Repr

/-- `struct HarperExtension`: the mutable extension state. -/
structure HarperExtension where
  binary_cache : Option Path
deriving DecidableEq, Repr

/-- `HarperExtension::new`. -/
def HarperExtension.new : HarperExtension := { binary_cache := none }

/-- Observable side effects of a resolution/install call: the two
status notifications and the two network operations. -/
inductive Event where
  | statusCheckingForUpdate
  | statusDownloading
  | releaseQuery
  | downloadFile (url : String)
deriving DecidableEq, Repr

/-- The full outcome of a call: emitted events, final filesystem,
final extension state, and the returned value. -/
structure StepResult where
  events : List Event
  fs : List Path
  state : HarperExtension
  result : Except String HarperBinary
deriving Repr

/-- `zed::Command`. -/
structure Command where
  command : String
  args : List String
  env : List (String × String)
deriving DecidableEq, Repr

/-- The architecture tag used in asset names; `None` encodes the
early-return error for 32-bit x86 (src/lib.rs lines 82-86). -/
def archName : Architecture → Option String
  | .aarch64 => some "aarch64"
  | .x8664 => some "x86_64"
  | .x86 => none

/-- OS tag and archive extension (src/lib.rs lines 88-92). -/
def osInfo : Os → String × String
  | .mac => ("apple-darwin", "tar.gz")
  | .linux => ("unknown-linux-gnu", "tar.gz")
  | .windows => ("pc-windows-msvc", "zip")

/-- `format!("{NAME}-{arch_name}-{os_str}.{file_ext}")` (line 94). -/
def assetName (arch_name os_str file_ext : String) : String :=
  NAME ++ "-" ++ arch_name ++ "-" ++ os_str ++ "." ++ file_ext

/-- `format!("{NAME}-{}", release.version)` (line 101). -/
def versionDirName (version : String) : String :=
  NAME ++ "-" ++ version

/-- File name of the installed binary: `NAME`, with `.exe` substituted
on Windows via `set_extension` (lines 102-106). -/
def binaryFileName : Os → String
  | .windows => NAME ++ ".exe"
  | _ => NAME

/-- `fs::remove_dir_all(dir)`: delete the directory entry `dir` at the
install root together with everything below it (all paths whose first
component is `dir`). -/
def removeDirAll (fs : List Path) (dir : String) : List Path :=
  fs.filter (fun p => decide (p.head? ≠ some dir))

/-- `fs::read_dir(".")`: the names of the entries at the install root,
i.e. the distinct first components of the existing paths. -/
def dirEntries (fs : List Path) : List String :=
  (fs.filterMap (fun p => p.head?)).dedup

/-- The stale-version cleanup loop (lines 137-145): for every entry at
the install root other than `keep`, `remove_dir_all` it, ignoring
failures. -/
def cleanupStale (fs : List Path) (keep : String) : List Path :=
  (dirEntries fs).foldl
    (fun acc e => if e = keep then acc else removeDirAll acc e) fs

/-- `HarperExtension::install_binary` (lines 63-155), as a function of
the extension state and the ambient `World`. -/
def install_binary (st : HarperExtension) (w : World) : StepResult :=
  let ev : List Event := [.statusCheckingForUpdate, .releaseQuery]
  match w.releaseResult with
  | .error e =>
      ⟨ev, w.fs, st, .error ("Failed to fetch latest release: " ++ e)⟩
  | .ok release =>
    match archName w.arch with
    | none => ⟨ev, w.fs, st, .error "x86 architecture is not supported"⟩
    | some arch_name =>
      let os_str := (osInfo w.platform).1
      let file_ext := (osInfo w.platform).2
      let asset_name := assetName arch_name os_str file_ext
      match release.assets.find? (fun a => a.name == asset_name) with
      | none =>
          ⟨ev, w.fs, st,
           .error ("No compatible Harper binary found for " ++ arch_name
                   ++ "-" ++ os_str)⟩
      | some asset =>
        let version_dir := versionDirName release.version
        let binary_path : Path := [version_dir, binaryFileName w.platform]
        if binary_path ∈ w.fs then
          ⟨ev, w.fs, { binary_cache := some binary_path },
           .ok ⟨binary_path, none, none⟩⟩
        else
          let ev2 := ev ++ [.statusDownloading, .downloadFile asset.download_url]
          let fsDl := w.fs ++ [version_dir] :: w.downloadCreates.map
            (fun r => version_dir :: r)
          match w.downloadResult with
          | .error e =>
              ⟨ev2, removeDirAll fsDl version_dir, st,
               .error ("Failed to download Harper binary: " ++ e)⟩
          | .ok _ =>
            match (if binary_path ∈ fsDl then w.makeExecutableResult
                   else .error "No such file or directory") with
            | .error e =>
                ⟨ev2, removeDirAll fsDl version_dir, st,
                 .error ("Failed to make binary executable: " ++ e)⟩
            | .ok _ =>
                ⟨ev2, cleanupStale fsDl version_dir,
                 { binary_cache := some binary_path },
                 .ok ⟨binary_path, none, none⟩⟩

/-- The configured-binary extraction at the top of `get_binary`
(lines 29-32): `LspSettings::for_worktree(..).ok().and_then(|s|
s.binary).and_then(|b| b.path.map(|p| (p, b.arguments)))`. -/
def settingsBinary (wt : Worktree) : Option (Path × Option (List String)) :=
  match wt.lspSettings with
  | .error _ => none
  | .ok s =>
    match s.binary with
    | none => none
    | some b =>
      match b.path with
      | none => none
      | some p => some (p, b.arguments)

/-- `HarperExtension::get_binary` (lines 24-61). -/
def get_binary (st : HarperExtension) (wt : Worktree) (w : World) :
    StepResult :=
  match settingsBinary wt with
  | some pa => ⟨[], w.fs, st, .ok ⟨pa.1, pa.2, some wt.shellEnv⟩⟩
  | none =>
    match wt.whichResult with
    | some path => ⟨[], w.fs, st, .ok ⟨path, none, some wt.shellEnv⟩⟩
    | none =>
      match st.binary_cache with
      | some path =>
        if path ∈ w.fs then ⟨[], w.fs, st, .ok ⟨path, none, none⟩⟩
        else install_binary st w
      | none => install_binary st w

/-- The outcome of `language_server_command`. -/
structure CommandResult where
  events : List Event
  fs : List Path
  state : HarperExtension
  result : Except String Command
deriving Repr

/-- Render a component path as the string handed to the host
(`path.to_str()`). -/
def pathToString (p : Path) : String := String.intercalate "/" p

/-- `Extension::language_server_command` (lines 163-178). -/
def language_server_command (st : HarperExtension) (wt : Worktree)
    (w : World) : CommandResult :=
  let r := get_binary st wt w
  match r.result with
  | .error e => ⟨r.events, r.fs, r.state, .error e⟩
  | .ok b =>
      ⟨r.events, r.fs, r.state,
       .ok ⟨pathToString b.path, b.args.getD ["--stdio"], b.env.getD []⟩⟩

/-- `Extension::language_server_initialization_options` (lines 180-190). -/
def language_server_initialization_options (wt : Worktree) :
    Except String (Option Json) :=
  .ok (match wt.lspSettings with
       | .error _ => none
       | .ok s => s.initialization_options)

/-- The default workspace settings object `json!({ "harper-ls": { } })`
(line 203). -/
def defaultWorkspaceSettings : Json := Json.obj [("harper-ls", Json.obj [])]

/-- `Extension::language_server_workspace_configuration` (lines 192-207). -/
def language_server_workspace_configuration (wt : Worktree) :
    Except String (Option Json) :=
  .ok (match wt.lspSettings with
       | .error _ => none
       | .ok s =>
         match s.settings with
         | some v => some v
         | none => some defaultWorkspaceSettings)

/-! ### Helper lemmas about the filesystem operations -/

theorem mem_removeDirAll {fs : List Path} {dir : String} {p : Path} :
    p ∈ removeDirAll fs dir ↔ p ∈ fs ∧ p.head? ≠ some dir := by
  simp [removeDirAll, List.mem_filter]

theorem mem_foldl_cleanup (keep : String) (entries : List String)
    (fs : List Path) (p : Path) :
    p ∈ entries.foldl
        (fun acc e => if e = keep then acc else removeDirAll acc e) fs ↔
      p ∈ fs ∧ ∀ e ∈ entries, e ≠ keep → p.head? ≠ some e := by
  induction entries generalizing fs with
  | nil => simp
  | cons e es ih =>
    simp only [List.foldl_cons]
    rw [ih]
    by_cases he : e = keep
    · subst he
      simp [List.forall_mem_cons]
    · rw [if_neg he, mem_removeDirAll]
      simp [List.forall_mem_cons, he, and_assoc]

theorem mem_cleanupStale {fs : List Path} {keep : String} {p : Path} :
    p ∈ cleanupStale fs keep ↔
      p ∈ fs ∧ ∀ e ∈ dirEntries fs, e ≠ keep → p.head? ≠ some e :=
  mem_foldl_cleanup keep (dirEntries fs) fs p

theorem mem_dirEntries {fs : List Path} {e : String} :
    e ∈ dirEntries fs ↔ ∃ p ∈ fs, p.head? = some e := by
  simp [dirEntries, List.mem_dedup, List.mem_filterMap]

theorem cleanupStale_keeps {fs : List Path} {keep : String} {p : Path}
    (hp : p ∈ fs) (hh : p.head? = some keep) : p ∈ cleanupStale fs keep := by
  rw [mem_cleanupStale]
  refine ⟨hp, fun e he hne => ?_⟩
  simp only [hh]
  exact fun h => hne (Option.some_inj.mp h).symm

theorem dirEntries_cleanupStale {fs : List Path} {keep : String} {e : String}
    (he : e ∈ dirEntries (cleanupStale fs keep)) : e = keep := by
  rw [mem_dirEntries] at he
  obtain ⟨p, hp, hph⟩ := he
  rw [mem_cleanupStale] at hp
  by_contra hne
  exact hp.2 e (mem_dirEntries.mpr ⟨p, hp.1, hph⟩) hne hph

/-! ### Claims about the resolver -/

/-- C1: binary resolution is a strict short-circuiting priority chain:
an explicitly configured path is returned verbatim with the configured
arguments and the shell environment (also when PATH lookup and cache
would succeed); otherwise a successful `which` lookup is returned with
no arguments and the shell environment; otherwise a cached path that
still exists is returned with no arguments and no environment; only
otherwise is the installer invoked. -/
theorem get_binary_priority (st : HarperExtension) (wt : Worktree)
    (w : World) :
    (∀ s b p, wt.lspSettings = Except.ok s → s.binary = some b →
      b.path = some p →
      get_binary st wt w =
        ⟨[], w.fs, st, .ok ⟨p, b.arguments, some wt.shellEnv⟩⟩) ∧
    (∀ p, settingsBinary wt = none → wt.whichResult = some p →
      get_binary st wt w =
        ⟨[], w.fs, st, .ok ⟨p, none, some wt.shellEnv⟩⟩) ∧
    (∀ p, settingsBinary wt = none → wt.whichResult = none →
      st.binary_cache = some p → p ∈ w.fs →
      get_binary st wt w = ⟨[], w.fs, st, .ok ⟨p, none, none⟩⟩) ∧
    (settingsBinary wt = none → wt.whichResult = none →
      (∀ p, st.binary_cache = some p → p ∉ w.fs) →
      get_binary st wt w = install_binary st w) := by
  refine ⟨?_, ?_, ?_, ?_⟩
  · intro s b p hs hb hp
    have hsb : settingsBinary wt = some (p, b.arguments) := by
      simp [settingsBinary, hs, hb, hp]
    simp [get_binary, hsb]
  · intro p hsb hw
    simp [get_binary, hsb, hw]
  · intro p hsb hw hc hmem
    simp [get_binary, hsb, hw, hc, hmem]
  · intro hsb hw hc
    cases hcc : st.binary_cache with
    | none => simp [get_binary, hsb, hw, hcc]
    | some p => simp [get_binary, hsb, hw, hcc, hc p hcc]

/-- Witness for C1: with a configured path, a PATH hit and an existing
cached path all present at once, the configured path wins. -/
theorem get_binary_priority_witness :
    get_binary ⟨some ["cached", "harper-ls"]⟩
      ⟨.ok ⟨some ⟨some ["usr", "bin", "harper-ls"], some ["--alt"]⟩,
           none, none⟩,
       some ["path", "harper-ls"], [("PATH", "/usr/bin")]⟩
      ⟨.ok ⟨"v1", []⟩, .linux, .aarch64, [["cached", "harper-ls"]],
       .ok (), [], .ok ()⟩
    = ⟨[], [["cached", "harper-ls"]], ⟨some ["cached", "harper-ls"]⟩,
       .ok ⟨["usr", "bin", "harper-ls"], some ["--alt"],
            some [("PATH", "/usr/bin")]⟩⟩ :=
  (get_binary_priority _ _ _).1 _ _ _ rfl rfl rfl

/-- C7: a failure of the configuration lookup itself is swallowed:
resolution behaves exactly as if no binary were configured, falling
through to the next tier, and in particular a successful PATH lookup
still yields a successful resolution. -/
theorem get_binary_config_failure (st : HarperExtension) (wt : Worktree)
    (w : World) (e : String) (h : wt.lspSettings = .error e) :
    get_binary st wt w =
      get_binary st { wt with lspSettings := .ok ⟨none, none, none⟩ } w ∧
    (∀ p, wt.whichResult = some p →
      (get_binary st wt w).result = .ok ⟨p, none, some wt.shellEnv⟩) := by
  have hsb : settingsBinary wt = none := by simp [settingsBinary, h]
  have hsb2 :
      settingsBinary { wt with lspSettings := .ok ⟨none, none, none⟩ }
        = none := by
    simp [settingsBinary]
  constructor
  · simp only [get_binary, hsb, hsb2]
  · intro p hp
    simp [get_binary, hsb, hp]

/-- Witness for C7: with malformed settings and a PATH hit, resolution
succeeds with the PATH result. -/
theorem get_binary_config_failure_witness :
    (get_binary ⟨none⟩
      ⟨.error "malformed settings", some ["usr", "bin", "harper-ls"],
       [("HOME", "/root")]⟩
      ⟨.ok ⟨"v1", []⟩, .mac, .aarch64, [], .ok (), [], .ok ()⟩).result
    = .ok ⟨["usr", "bin", "harper-ls"], none, some [("HOME", "/root")]⟩ :=
  (get_binary_config_failure _ _ _ "malformed settings" rfl).2 _ rfl

/-! ### Branch lemmas for `install_binary` -/

theorem install_binary_skip (st : HarperExtension) (w : World)
    (rel : GithubRelease) (an : String) (asset : GithubReleaseAsset)
    (hrel : w.releaseResult = .ok rel) (harch : archName w.arch = some an)
    (hfind : rel.assets.find?
        (fun a => a.name == assetName an (osInfo w.platform).1
            (osInfo w.platform).2) = some asset)
    (hmem : [versionDirName rel.version, binaryFileName w.platform] ∈ w.fs) :
    install_binary st w =
      ⟨[.statusCheckingForUpdate, .releaseQuery], w.fs,
       ⟨some [versionDirName rel.version, binaryFileName w.platform]⟩,
       .ok ⟨[versionDirName rel.version, binaryFileName w.platform],
            none, none⟩⟩ := by
  simp only [install_binary, hrel, harch, hfind]
  rw [if_pos hmem]

theorem install_binary_fresh_download_error (st : HarperExtension)
    (w : World) (rel : GithubRelease) (an : String)
    (asset : GithubReleaseAsset) (e : String)
    (hrel : w.releaseResult = .ok rel) (harch : archName w.arch = some an)
    (hfind : rel.assets.find?
        (fun a => a.name == assetName an (osInfo w.platform).1
            (osInfo w.platform).2) = some asset)
    (hmem : [versionDirName rel.version, binaryFileName w.platform] ∉ w.fs)
    (hdl : w.downloadResult = .error e) :
    install_binary st w =
      ⟨[.statusCheckingForUpdate, .releaseQuery, .statusDownloading,
        .downloadFile asset.download_url],
       removeDirAll
         (w.fs ++ [versionDirName rel.version] :: w.downloadCreates.map
           (fun r => versionDirName rel.version :: r))
         (versionDirName rel.version),
       st, .error ("Failed to download Harper binary: " ++ e)⟩ := by
  simp only [install_binary, hrel, harch, hfind]
  rw [if_neg hmem, hdl]
  rfl

theorem install_binary_fresh_chmod_error (st : HarperExtension)
    (w : World) (rel : GithubRelease) (an : String)
    (asset : GithubReleaseAsset) (e : String)
    (hrel : w.releaseResult = .ok rel) (harch : archName w.arch = some an)
    (hfind : rel.assets.find?
        (fun a => a.name == assetName an (osInfo w.platform).1
            (osInfo w.platform).2) = some asset)
    (hmem : [versionDirName rel.version, binaryFileName w.platform] ∉ w.fs)
    (hdl : w.downloadResult = .ok ())
    (hme : (if [versionDirName rel.version, binaryFileName w.platform] ∈
              w.fs ++ [versionDirName rel.version] :: w.downloadCreates.map
                (fun r => versionDirName rel.version :: r)
            then w.makeExecutableResult
            else .error "No such file or directory") = .error e) :
    install_binary st w =
      ⟨[.statusCheckingForUpdate, .releaseQuery, .statusDownloading,
        .downloadFile asset.download_url],
       removeDirAll
         (w.fs ++ [versionDirName rel.version] :: w.downloadCreates.map
           (fun r => versionDirName rel.version :: r))
         (versionDirName rel.version),
       st, .error ("Failed to make binary executable: " ++ e)⟩ := by
  simp only [install_binary, hrel, harch, hfind]
  rw [if_neg hmem, hdl, hme]
  rfl

theorem install_binary_fresh_ok (st : HarperExtension) (w : World)
    (rel : GithubRelease) (an : String) (asset : GithubReleaseAsset)
    (hrel : w.releaseResult = .ok rel) (harch : archName w.arch = some an)
    (hfind : rel.assets.find?
        (fun a => a.name == assetName an (osInfo w.platform).1
            (osInfo w.platform).2) = some asset)
    (hmem : [versionDirName rel.version, binaryFileName w.platform] ∉ w.fs)
    (hdl : w.downloadResult = .ok ())
    (hbin : [versionDirName rel.version, binaryFileName w.platform] ∈
      w.fs ++ [versionDirName rel.version] :: w.downloadCreates.map
        (fun r => versionDirName rel.version :: r))
    (hmk : w.makeExecutableResult = .ok ()) :
    install_binary st w =
      ⟨[.statusCheckingForUpdate, .releaseQuery, .statusDownloading,
        .downloadFile asset.download_url],
       cleanupStale
         (w.fs ++ [versionDirName rel.version] :: w.downloadCreates.map
           (fun r => versionDirName rel.version :: r))
         (versionDirName rel.version),
       ⟨some [versionDirName rel.version, binaryFileName w.platform]⟩,
       .ok ⟨[versionDirName rel.version, binaryFileName w.platform],
            none, none⟩⟩ := by
  simp only [install_binary, hrel, harch, hfind]
  rw [if_neg hmem, hdl, if_pos hbin, hmk]
  rfl

/-! ### Claims about the installer -/

/-- C2 counterexample: on 32-bit x86 with a reachable release service,
the GitHub release query (a network call) is performed — its event is
in the trace — even though the call then fails with the
unsupported-architecture message, so the rejection does not happen
before every network call. -/
theorem install_x86_queries_release_counterexample :
    (install_binary ⟨none⟩
      ⟨.ok ⟨"v1", [⟨"a", "u"⟩]⟩, .linux, .x86, [], .ok (), [],
       .ok ()⟩).result = .error "x86 architecture is not supported" ∧
    Event.releaseQuery ∈
      (install_binary ⟨none⟩
        ⟨.ok ⟨"v1", [⟨"a", "u"⟩]⟩, .linux, .x86, [], .ok (), [],
         .ok ()⟩).events := by
  exact ⟨rfl, by decide⟩

/-- C2 (amended): on 32-bit x86 no download is ever attempted and,
whenever the release query succeeds, installation fails with the
unsupported-architecture message leaving filesystem and state
untouched; the release query itself, however, is still performed
before the rejection. -/
theorem install_x86_rejected (st : HarperExtension) (w : World)
    (h : w.arch = .x86) :
    (∀ u, Event.downloadFile u ∉ (install_binary st w).events) ∧
    Event.statusDownloading ∉ (install_binary st w).events ∧
    Event.releaseQuery ∈ (install_binary st w).events ∧
    (∀ rel, w.releaseResult = .ok rel →
      (install_binary st w).result =
          .error "x86 architecture is not supported" ∧
      (install_binary st w).fs = w.fs ∧
      (install_binary st w).state = st) := by
  have harch : archName w.arch = none := by rw [h]; rfl
  cases hr : w.releaseResult with
  | error e => refine ⟨?_, ?_, ?_, ?_⟩ <;> simp [install_binary, hr]
  | ok rel => refine ⟨?_, ?_, ?_, ?_⟩ <;> simp [install_binary, hr, harch]

/-- Witness for the amended C2. -/
theorem install_x86_rejected_witness :
    (install_binary ⟨none⟩
      ⟨.ok ⟨"v2", []⟩, .windows, .x86, [["old"]], .error "net", [],
       .ok ()⟩).result = .error "x86 architecture is not supported" :=
  ((install_x86_rejected _ _ rfl).2.2.2 _ rfl).1

/-- C6: for every supported platform/architecture the expected asset
name is the pure function `assetName` of the name, architecture tag,
OS tag and extension; selection is by exact name match — when no asset
matches exactly, the install fails naming the missing combination, and
when one matches, that asset's URL is the one downloaded. -/
theorem install_asset_selection (st : HarperExtension) (w : World)
    (rel : GithubRelease) (an : String)
    (hrel : w.releaseResult = .ok rel)
    (harch : archName w.arch = some an) :
    ((∀ a ∈ rel.assets,
        a.name ≠ assetName an (osInfo w.platform).1 (osInfo w.platform).2) →
      (install_binary st w).result =
        .error ("No compatible Harper binary found for " ++ an ++ "-" ++
                (osInfo w.platform).1)) ∧
    (∀ asset, rel.assets.find?
        (fun a => a.name == assetName an (osInfo w.platform).1
            (osInfo w.platform).2) = some asset →
      [versionDirName rel.version, binaryFileName w.platform] ∉ w.fs →
      Event.downloadFile asset.download_url ∈
        (install_binary st w).events) := by
  constructor
  · intro hnone
    have hfind : rel.assets.find?
        (fun a => a.name == assetName an (osInfo w.platform).1
            (osInfo w.platform).2) = none := by
      rw [List.find?_eq_none]
      intro a ha
      simp [hnone a ha]
    simp [install_binary, hrel, harch, hfind]
  · intro asset hfind hmem
    rcases hdl : w.downloadResult with ed | u
    · rw [install_binary_fresh_download_error st w rel an asset ed hrel
        harch hfind hmem hdl]
      simp
    · cases u
      by_cases hbin :
          [versionDirName rel.version, binaryFileName w.platform] ∈
            w.fs ++ [versionDirName rel.version] :: w.downloadCreates.map
              (fun r => versionDirName rel.version :: r)
      · rcases hmk : w.makeExecutableResult with em | um
        · rw [install_binary_fresh_chmod_error st w rel an asset em hrel
            harch hfind hmem hdl (by rw [if_pos hbin, hmk])]
          simp
        · cases um
          rw [install_binary_fresh_ok st w rel an asset hrel harch hfind
            hmem hdl hbin hmk]
          simp
      · rw [install_binary_fresh_chmod_error st w rel an asset
          "No such file or directory" hrel harch hfind hmem hdl
          (by rw [if_neg hbin])]
        simp

/-- Witness for C6: a Mac/x86_64 install against a release that only
carries an unrelated asset fails naming the missing combination. -/
theorem install_asset_selection_witness :
    (install_binary ⟨none⟩
      ⟨.ok ⟨"v9", [⟨"other.zip", "u0"⟩]⟩, .mac, .x8664, [], .ok (), [],
       .ok ()⟩).result
      = .error "No compatible Harper binary found for x86_64-apple-darwin" :=
  (install_asset_selection ⟨none⟩
    ⟨.ok ⟨"v9", [⟨"other.zip", "u0"⟩]⟩, .mac, .x8664, [], .ok (), [],
     .ok ()⟩
    ⟨"v9", [⟨"other.zip", "u0"⟩]⟩ "x86_64" rfl rfl).1 (by decide)

/-- C3: once an install reaches the download/unpack step, any failure
of the download or of the make-executable step leaves no trace of the
version-scoped directory: every path surviving in the final filesystem
has a first component different from the version directory's name. -/
theorem install_rollback (st : HarperExtension) (w : World)
    (rel : GithubRelease) (an : String) (asset : GithubReleaseAsset)
    (e : String)
    (hrel : w.releaseResult = .ok rel)
    (harch : archName w.arch = some an)
    (hfind : rel.assets.find?
        (fun a => a.name == assetName an (osInfo w.platform).1
            (osInfo w.platform).2) = some asset)
    (hmem : [versionDirName rel.version, binaryFileName w.platform] ∉ w.fs)
    (herr : (install_binary st w).result = .error e) :
    ∀ p ∈ (install_binary st w).fs,
      p.head? ≠ some (versionDirName rel.version) := by
  rcases hdl : w.downloadResult with ed | u
  · rw [install_binary_fresh_download_error st w rel an asset ed hrel
      harch hfind hmem hdl]
    intro p hp
    exact (mem_removeDirAll.mp hp).2
  · cases u
    by_cases hbin :
        [versionDirName rel.version, binaryFileName w.platform] ∈
          w.fs ++ [versionDirName rel.version] :: w.downloadCreates.map
            (fun r => versionDirName rel.version :: r)
    · rcases hmk : w.makeExecutableResult with em | um
      · rw [install_binary_fresh_chmod_error st w rel an asset em hrel
          harch hfind hmem hdl (by rw [if_pos hbin, hmk])]
        intro p hp
        exact (mem_removeDirAll.mp hp).2
      · cases um
        rw [install_binary_fresh_ok st w rel an asset hrel harch hfind
          hmem hdl hbin hmk] at herr
        simp at herr
    · rw [install_binary_fresh_chmod_error st w rel an asset
        "No such file or directory" hrel harch hfind hmem hdl
        (by rw [if_neg hbin])]
      intro p hp
      exact (mem_removeDirAll.mp hp).2

/-- Witness for C3: a failed download on Linux/x86_64 of release
`v1.2.0` leaves no `harper-ls-v1.2.0` directory behind, even though
the extraction had already created partial content. -/
theorem install_rollback_witness :
    (["harper-ls-v1.2.0"] : Path) ∉
      (install_binary ⟨none⟩
        ⟨.ok ⟨"v1.2.0",
              [⟨"harper-ls-x86_64-unknown-linux-gnu.tar.gz", "u"⟩]⟩,
         .linux, .x8664, [["stale"]], .error "net", [["harper-ls"]],
         .ok ()⟩).fs :=
  fun hmem => install_rollback ⟨none⟩
    ⟨.ok ⟨"v1.2.0",
          [⟨"harper-ls-x86_64-unknown-linux-gnu.tar.gz", "u"⟩]⟩,
     .linux, .x8664, [["stale"]], .error "net", [["harper-ls"]], .ok ()⟩
    ⟨"v1.2.0", [⟨"harper-ls-x86_64-unknown-linux-gnu.tar.gz", "u"⟩]⟩
    "x86_64" ⟨"harper-ls-x86_64-unknown-linux-gnu.tar.gz", "u"⟩
    "Failed to download Harper binary: net" rfl rfl rfl (by decide) rfl
    ["harper-ls-v1.2.0"] hmem rfl

theorem install_ok_cases (st : HarperExtension) (w : World)
    (b : HarperBinary) (h : (install_binary st w).result = .ok b) :
    ∃ rel an asset,
      w.releaseResult = .ok rel ∧ archName w.arch = some an ∧
      rel.assets.find?
          (fun a => a.name == assetName an (osInfo w.platform).1
              (osInfo w.platform).2) = some asset ∧
      b = ⟨[versionDirName rel.version, binaryFileName w.platform],
           none, none⟩ ∧
      b.path ∈ (install_binary st w).fs ∧
      (install_binary st w).state = ⟨some b.path⟩ := by
  rcases hrel : w.releaseResult with er | rel
  · simp [install_binary, hrel] at h
  · rcases harch : archName w.arch with _ | an
    · simp [install_binary, hrel, harch] at h
    · rcases hfind : rel.assets.find?
          (fun a => a.name == assetName an (osInfo w.platform).1
              (osInfo w.platform).2) with _ | asset
      · simp [install_binary, hrel, harch, hfind] at h
      · refine ⟨rel, an, asset, rfl, rfl, hfind, ?_⟩
        by_cases hmem :
            [versionDirName rel.version, binaryFileName w.platform] ∈ w.fs
        · have heq := install_binary_skip st w rel an asset hrel harch
            hfind hmem
          rw [heq] at h
          simp only [Except.ok.injEq] at h
          subst h
          refine ⟨rfl, ?_, ?_⟩
          · rw [heq]
            exact hmem
          · rw [heq]
        · rcases hdl : w.downloadResult with ed | u
          · rw [install_binary_fresh_download_error st w rel an asset ed
              hrel harch hfind hmem hdl] at h
            simp at h
          · cases u
            by_cases hbin :
                [versionDirName rel.version, binaryFileName w.platform] ∈
                  w.fs ++ [versionDirName rel.version] ::
                    w.downloadCreates.map
                      (fun r => versionDirName rel.version :: r)
            · rcases hmk : w.makeExecutableResult with em | um
              · rw [install_binary_fresh_chmod_error st w rel an asset em
                  hrel harch hfind hmem hdl (by rw [if_pos hbin, hmk])] at h
                simp at h
              · cases um
                have heq := install_binary_fresh_ok st w rel an asset hrel
                  harch hfind hmem hdl hbin hmk
                rw [heq] at h
                simp only [Except.ok.injEq] at h
                subst h
                refine ⟨rfl, ?_, ?_⟩
                · rw [heq]
                  exact cleanupStale_keeps hbin rfl
                · rw [heq]
            · rw [install_binary_fresh_chmod_error st w rel an asset
                "No such file or directory" hrel harch hfind hmem hdl
                (by rw [if_neg hbin])] at h
              simp at h

theorem install_state_cases (st : HarperExtension) (w : World) :
    (install_binary st w).state = st ∨
    ∃ b, (install_binary st w).result = .ok b ∧
      (install_binary st w).state = ⟨some b.path⟩ := by
  simp only [install_binary]
  split
  · exact Or.inl rfl
  · split
    · exact Or.inl rfl
    · split
      · exact Or.inl rfl
      · split
        · exact Or.inr ⟨_, rfl, rfl⟩
        · split
          · exact Or.inl rfl
          · split
            · exact Or.inl rfl
            · exact Or.inr ⟨_, rfl, rfl⟩

/-- C4: installation is idempotent per release version.  Whenever an
install succeeds, re-running it against the resulting filesystem skips
download, extraction and permission-setting entirely — no `Downloading`
status and no download request occur — leaves the filesystem untouched
and returns the same binary descriptor. -/
theorem install_idempotent (st : HarperExtension) (w : World)
    (b : HarperBinary) (h : (install_binary st w).result = .ok b) :
    (install_binary (install_binary st w).state
        { w with fs := (install_binary st w).fs }).result = .ok b ∧
    (install_binary (install_binary st w).state
        { w with fs := (install_binary st w).fs }).fs =
      (install_binary st w).fs ∧
    (∀ u, Event.downloadFile u ∉
      (install_binary (install_binary st w).state
        { w with fs := (install_binary st w).fs }).events) ∧
    Event.statusDownloading ∉
      (install_binary (install_binary st w).state
        { w with fs := (install_binary st w).fs }).events := by
  obtain ⟨rel, an, asset, hrel, harch, hfind, hb, hmem, hst⟩ :=
    install_ok_cases st w b h
  subst hb
  have heq := install_binary_skip (install_binary st w).state
    { w with fs := (install_binary st w).fs } rel an asset hrel harch
    hfind hmem
  rw [heq]
  refine ⟨rfl, rfl, ?_, ?_⟩ <;> simp

/-- Witness for C4: a concrete successful Linux install re-run on its
own output returns the same descriptor. -/
theorem install_idempotent_witness :
    (install_binary
      (install_binary ⟨none⟩
        ⟨.ok ⟨"v1.2.0",
              [⟨"harper-ls-x86_64-unknown-linux-gnu.tar.gz", "u"⟩]⟩,
         .linux, .x8664, [], .ok (), [["harper-ls"]], .ok ()⟩).state
      { (⟨.ok ⟨"v1.2.0",
              [⟨"harper-ls-x86_64-unknown-linux-gnu.tar.gz", "u"⟩]⟩,
         .linux, .x8664, [], .ok (), [["harper-ls"]], .ok ()⟩ : World) with
        fs := (install_binary ⟨none⟩
          ⟨.ok ⟨"v1.2.0",
                [⟨"harper-ls-x86_64-unknown-linux-gnu.tar.gz", "u"⟩]⟩,
           .linux, .x8664, [], .ok (), [["harper-ls"]], .ok ()⟩).fs }).result
    = .ok ⟨["harper-ls-v1.2.0", "harper-ls"], none, none⟩ :=
  (install_idempotent ⟨none⟩
    ⟨.ok ⟨"v1.2.0", [⟨"harper-ls-x86_64-unknown-linux-gnu.tar.gz", "u"⟩]⟩,
     .linux, .x8664, [], .ok (), [["harper-ls"]], .ok ()⟩
    ⟨["harper-ls-v1.2.0", "harper-ls"], none, none⟩ rfl).1

/-- C5: after a successful fresh install every entry left at the
install root is the just-created version directory (all stale siblings
are gone) and that directory is indeed present; after a
skip-because-already-installed the filesystem is untouched, so the
cleanup never runs there. -/
theorem install_cleanup (st : HarperExtension) (w : World)
    (rel : GithubRelease) (an : String) (asset : GithubReleaseAsset)
    (hrel : w.releaseResult = .ok rel)
    (harch : archName w.arch = some an)
    (hfind : rel.assets.find?
        (fun a => a.name == assetName an (osInfo w.platform).1
            (osInfo w.platform).2) = some asset) :
    (∀ b, [versionDirName rel.version, binaryFileName w.platform] ∉ w.fs →
      (install_binary st w).result = .ok b →
      (∀ e ∈ dirEntries (install_binary st w).fs,
        e = versionDirName rel.version) ∧
      versionDirName rel.version ∈ dirEntries (install_binary st w).fs) ∧
    ([versionDirName rel.version, binaryFileName w.platform] ∈ w.fs →
      (install_binary st w).fs = w.fs) := by
  constructor
  · intro b hmem hok
    rcases hdl : w.downloadResult with ed | u
    · rw [install_binary_fresh_download_error st w rel an asset ed hrel
        harch hfind hmem hdl] at hok
      simp at hok
    · cases u
      by_cases hbin :
          [versionDirName rel.version, binaryFileName w.platform] ∈
            w.fs ++ [versionDirName rel.version] :: w.downloadCreates.map
              (fun r => versionDirName rel.version :: r)
      · rcases hmk : w.makeExecutableResult with em | um
        · rw [install_binary_fresh_chmod_error st w rel an asset em hrel
            harch hfind hmem hdl (by rw [if_pos hbin, hmk])] at hok
          simp at hok
        · cases um
          have heq := install_binary_fresh_ok st w rel an asset hrel harch
            hfind hmem hdl hbin hmk
          rw [heq]
          constructor
          · intro e he
            exact dirEntries_cleanupStale he
          · exact mem_dirEntries.mpr
              ⟨[versionDirName rel.version],
               cleanupStale_keeps (by simp) rfl, rfl⟩
      · rw [install_binary_fresh_chmod_error st w rel an asset
          "No such file or directory" hrel harch hfind hmem hdl
          (by rw [if_neg hbin])] at hok
        simp at hok
  · intro hmem
    rw [install_binary_skip st w rel an asset hrel harch hfind hmem]

/-- Witness for C5: a fresh install of `v2.0.0` over a leftover
`v1.0.0` directory leaves the `v1.0.0` entry deleted and the `v2.0.0`
entry present. -/
theorem install_cleanup_witness :
    "harper-ls-v1.0.0" ∉
      dirEntries (install_binary ⟨none⟩
        ⟨.ok ⟨"v2.0.0",
              [⟨"harper-ls-x86_64-unknown-linux-gnu.tar.gz", "u"⟩]⟩,
         .linux, .x8664,
         [["harper-ls-v1.0.0"], ["harper-ls-v1.0.0", "harper-ls"]],
         .ok (), [["harper-ls"]], .ok ()⟩).fs ∧
    "harper-ls-v2.0.0" ∈
      dirEntries (install_binary ⟨none⟩
        ⟨.ok ⟨"v2.0.0",
              [⟨"harper-ls-x86_64-unknown-linux-gnu.tar.gz", "u"⟩]⟩,
         .linux, .x8664,
         [["harper-ls-v1.0.0"], ["harper-ls-v1.0.0", "harper-ls"]],
         .ok (), [["harper-ls"]], .ok ()⟩).fs := by
  have hc := (install_cleanup ⟨none⟩
    ⟨.ok ⟨"v2.0.0", [⟨"harper-ls-x86_64-unknown-linux-gnu.tar.gz", "u"⟩]⟩,
     .linux, .x8664,
     [["harper-ls-v1.0.0"], ["harper-ls-v1.0.0", "harper-ls"]],
     .ok (), [["harper-ls"]], .ok ()⟩
    ⟨"v2.0.0", [⟨"harper-ls-x86_64-unknown-linux-gnu.tar.gz", "u"⟩]⟩
    "x86_64" ⟨"harper-ls-x86_64-unknown-linux-gnu.tar.gz", "u"⟩
    rfl rfl rfl).1
    ⟨["harper-ls-v2.0.0", "harper-ls"], none, none⟩ (by decide) rfl
  exact ⟨fun hmem => absurd (hc.1 "harper-ls-v1.0.0" hmem) (by decide),
         hc.2⟩

/-- C10: the installed-binary cache starts empty, is set by every
successful install to exactly the returned path, is left unchanged by
a failed install, and is never cleared back to empty by an install or
a resolution once set. -/
theorem cache_lifecycle (st : HarperExtension) (wt : Worktree)
    (w : World) :
    HarperExtension.new.binary_cache = none ∧
    (∀ b, (install_binary st w).result = .ok b →
      (install_binary st w).state.binary_cache = some b.path) ∧
    (∀ e, (install_binary st w).result = .error e →
      (install_binary st w).state = st) ∧
    (∀ p, st.binary_cache = some p →
      (install_binary st w).state.binary_cache ≠ none) ∧
    (∀ p, st.binary_cache = some p →
      (get_binary st wt w).state.binary_cache ≠ none) ∧
    (language_server_command st wt w).state = (get_binary st wt w).state
    := by
  refine ⟨rfl, ?_, ?_, ?_, ?_, ?_⟩
  · intro b hok
    obtain ⟨rel, an, asset, _, _, _, _, _, hst⟩ :=
      install_ok_cases st w b hok
    rw [hst]
  · intro e herr
    rcases install_state_cases st w with hs | ⟨b, hok, _⟩
    · exact hs
    · rw [herr] at hok
      exact absurd hok (by simp)
  · intro p hc
    rcases install_state_cases st w with hs | ⟨b, _, hs⟩ <;> simp [hs, hc]
  · intro p hc
    cases hsb : settingsBinary wt with
    | some pa => simp [get_binary, hsb, hc]
    | none =>
      cases hw : wt.whichResult with
      | some q => simp [get_binary, hsb, hw, hc]
      | none =>
        simp only [get_binary, hsb, hw, hc]
        by_cases hm : p ∈ w.fs
        · simp [hm, hc]
        · rw [if_neg hm]
          rcases install_state_cases st w with hs | ⟨b, _, hs⟩ <;>
            simp [hs, hc]
  · simp only [language_server_command]
    split <;> rfl

/-- Witness for C10: a successful fresh install records the returned
path in the cache; a skip-because-already-installed (with the network
broken) still (re)assigns it; and a resolution starting from a
non-empty cache never empties it. -/
theorem cache_lifecycle_witness :
    (install_binary ⟨none⟩
      ⟨.ok ⟨"v1.2.0",
            [⟨"harper-ls-x86_64-unknown-linux-gnu.tar.gz", "u"⟩]⟩,
       .linux, .x8664, [], .ok (), [["harper-ls"]],
       .ok ()⟩).state.binary_cache
      = some ["harper-ls-v1.2.0", "harper-ls"] ∧
    (install_binary ⟨none⟩
      ⟨.ok ⟨"v1.2.0",
            [⟨"harper-ls-x86_64-unknown-linux-gnu.tar.gz", "u"⟩]⟩,
       .linux, .x8664, [["harper-ls-v1.2.0", "harper-ls"]],
       .error "offline", [], .error "nochmod"⟩).state.binary_cache
      = some ["harper-ls-v1.2.0", "harper-ls"] ∧
    (get_binary ⟨some ["gone"]⟩
      ⟨.error "bad settings", none, []⟩
      ⟨.error "offline", .mac, .aarch64, [], .ok (), [],
       .ok ()⟩).state.binary_cache ≠ none :=
  ⟨(cache_lifecycle ⟨none⟩ ⟨.error "bad settings", none, []⟩
      ⟨.ok ⟨"v1.2.0",
            [⟨"harper-ls-x86_64-unknown-linux-gnu.tar.gz", "u"⟩]⟩,
       .linux, .x8664, [], .ok (), [["harper-ls"]], .ok ()⟩).2.1
      ⟨["harper-ls-v1.2.0", "harper-ls"], none, none⟩ rfl,
   (cache_lifecycle ⟨none⟩ ⟨.error "bad settings", none, []⟩
      ⟨.ok ⟨"v1.2.0",
            [⟨"harper-ls-x86_64-unknown-linux-gnu.tar.gz", "u"⟩]⟩,
       .linux, .x8664, [["harper-ls-v1.2.0", "harper-ls"]],
       .error "offline", [], .error "nochmod"⟩).2.1
      ⟨["harper-ls-v1.2.0", "harper-ls"], none, none⟩ rfl,
   (cache_lifecycle ⟨some ["gone"]⟩ ⟨.error "bad settings", none, []⟩
      ⟨.error "offline", .mac, .aarch64, [], .ok (), [],
       .ok ()⟩).2.2.2.2.1 ["gone"] rfl⟩

/-- C8: in the launch command, a missing argument list defaults to
`["--stdio"]` and a missing environment defaults to empty; in
particular a configured binary path with no arguments yields that path
with the default arguments and the workspace's full shell
environment. -/
theorem command_defaults (st : HarperExtension) (wt : Worktree)
    (w : World) :
    (∀ b, (get_binary st wt w).result = .ok b → b.args = none →
      b.env = none →
      (language_server_command st wt w).result =
        .ok ⟨pathToString b.path, ["--stdio"], []⟩) ∧
    (∀ s bs p, wt.lspSettings = .ok s → s.binary = some bs →
      bs.path = some p → bs.arguments = none →
      (language_server_command st wt w).result =
        .ok ⟨pathToString p, ["--stdio"], wt.shellEnv⟩) := by
  constructor
  · intro b hok ha he
    simp [language_server_command, hok, ha, he]
  · intro s bs p hs hb hp hargs
    have hsb : settingsBinary wt = some (p, bs.arguments) := by
      simp [settingsBinary, hs, hb, hp]
    simp [language_server_command, get_binary, hsb, hargs]

/-- Witness for C8: a configured path with no arguments launches with
`["--stdio"]` and the shell environment. -/
theorem command_defaults_witness :
    (language_server_command ⟨none⟩
      ⟨.ok ⟨some ⟨some ["usr", "local", "bin", "harper-ls"], none⟩,
            none, none⟩,
       none, [("PATH", "/usr/bin")]⟩
      ⟨.ok ⟨"v1", []⟩, .linux, .aarch64, [], .ok (), [], .ok ()⟩).result
    = .ok ⟨"usr/local/bin/harper-ls", ["--stdio"], [("PATH", "/usr/bin")]⟩ :=
  (command_defaults ⟨none⟩
    ⟨.ok ⟨some ⟨some ["usr", "local", "bin", "harper-ls"], none⟩,
          none, none⟩,
     none, [("PATH", "/usr/bin")]⟩
    ⟨.ok ⟨"v1", []⟩, .linux, .aarch64, [], .ok (), [], .ok ()⟩).2
    _ _ _ rfl rfl rfl rfl

/-- C9: the two accessors are pure passthroughs of the host settings:
initialization options are forwarded unmodified, and the workspace
configuration is the stored settings value, defaulting to the object
keyed by the server name `{"harper-ls": {}}` when absent. -/
theorem passthrough_accessors (wt : Worktree) (s : LspSettings)
    (h : wt.lspSettings = .ok s) :
    language_server_initialization_options wt =
      .ok s.initialization_options ∧
    language_server_workspace_configuration wt =
      .ok (some (s.settings.getD defaultWorkspaceSettings)) := by
  constructor
  · simp [language_server_initialization_options, h]
  · cases hs : s.settings with
    | none =>
      simp [language_server_workspace_configuration, h, hs]
    | some v =>
      simp [language_server_workspace_configuration, h, hs]

/-- Witness for C9: with host settings present but a missing
`workspaceSettings` value the accessor returns the default
`{"harper-ls": {}}` object. -/
theorem passthrough_accessors_witness :
    language_server_workspace_configuration
      ⟨.ok ⟨none, none, none⟩, none, []⟩
    = .ok (some defaultWorkspaceSettings) :=
  (passthrough_accessors ⟨.ok ⟨none, none, none⟩, none, []⟩
    ⟨none, none, none⟩ rfl).2

end Harper
